import Mathlib

/-!
Verification of the AuthManager / signaling backend (octatecode-backend).

This file gives a shallow embedding of `src/authManager.ts` (token issue,
validation, invalidation, room-user listing) and of the signaling-server
fragments documented in the repository (the `handleAuth` and
`recordOperation` code), and proves the stated properties about them.

Modelling conventions:
  * `Date.now()` becomes an explicit `now : Nat` argument (milliseconds).
  * The JS `Map<string, AuthToken>` becomes an association list with JS
    `Map` semantics: `set` replaces in place or appends, `get` returns the
    entry for the key, `delete` removes it.  A real JS `Map` never holds
    two entries with one key, so theorems that need it assume `Nodup` keys.
  * `Buffer.from(s).toString('base64')` is embedded as UTF-8 encoding
    followed by base64, and `JSON.stringify` of the token record is
    embedded field by field in the object's insertion order.
-/

/-- UTF-8 encoding of one character as its byte values, as produced by
`Buffer.from(string)` in Node. -/
def charUTF8 (c : Char) : List Nat :=
  let n := c.toNat
  if n < 128 then [n]
  else if n < 2048 then [192 + n / 64, 128 + n % 64]
  else if n < 65536 then [224 + n / 4096, 128 + n / 64 % 64, 128 + n % 64]
  else [240 + n / 262144, 128 + n / 4096 % 64, 128 + n / 64 % 64, 128 + n % 64]

/-- UTF-8 byte values of a string. -/
def strBytes (s : String) : List Nat :=
  (s.toList.map charUTF8).flatten

/-- The sixty-four base64 digits. -/
def base64Alphabet : List Char :=
  "ABCDEFGHIJKLMNOPQRSTUVWXYZabcdefghijklmnopqrstuvwxyz0123456789+/".toList

/-- Digit `n` of the base64 alphabet. -/
def base64Char (n : Nat) : Char :=
  base64Alphabet.getD n 'A'

/-- Base64 encoding of a byte list, with `=` padding, as produced by
`Buffer.toString('base64')`. -/
def base64EncodeBytes : List Nat → List Char
  | [] => []
  | [a] => [base64Char (a / 4), base64Char (a % 4 * 16), '=', '=']
  | [a, b] => [base64Char (a / 4), base64Char (a % 4 * 16 + b / 16),
      base64Char (b % 16 * 4), '=']
  | a :: b :: c :: rest =>
    base64Char (a / 4) :: base64Char (a % 4 * 16 + b / 16) ::
      base64Char (b % 16 * 4 + c / 64) :: base64Char (c % 64) ::
      base64EncodeBytes rest

/-- The embedding of `Buffer.from(data).toString('base64')`. -/
def base64Encode (s : String) : String :=
  String.mk (base64EncodeBytes (strBytes s))

/-- Lower-case hexadecimal digit. -/
def hexDigit (n : Nat) : Char :=
  "0123456789abcdef".toList.getD n '0'

/-- JSON string escaping of one character, as `JSON.stringify` performs it. -/
def jsonEscapeChar (c : Char) : List Char :=
  if c = '"' then ['\\', '"']
  else if c = '\\' then ['\\', '\\']
  else if c = '\x08' then ['\\', 'b']
  else if c = '\t' then ['\\', 't']
  else if c = '\n' then ['\\', 'n']
  else if c = '\x0c' then ['\\', 'f']
  else if c = '\r' then ['\\', 'r']
  else if c.toNat < 32 then
    ['\\', 'u', '0', '0', hexDigit (c.toNat / 16), hexDigit (c.toNat % 16)]
  else [c]

/-- JSON string escaping, as `JSON.stringify` performs it on a string value. -/
def jsonEscape (s : String) : String :=
  String.mk ((s.toList.map jsonEscapeChar).flatten)

/-- The `AuthToken` interface of `src/authManager.ts`. -/
structure AuthToken where
  userId : String
  roomId : String
  issuedAt : Nat
  expiresAt : Nat
  signature : String
deriving DecidableEq, Repr

/-- `JSON.stringify` of an `AuthToken` object, fields in insertion order. -/
def tokenJson (t : AuthToken) : String :=
  "\x7b\"userId\":\"" ++ jsonEscape t.userId ++ "\",\"roomId\":\"" ++
    jsonEscape t.roomId ++ "\",\"issuedAt\":" ++ toString t.issuedAt ++
    ",\"expiresAt\":" ++ toString t.expiresAt ++ ",\"signature\":\"" ++
    jsonEscape t.signature ++ "\"\x7d"

/-- `Map.get`: the value stored under a key, if any. -/
def mapGet {κ α : Type} [DecidableEq κ] : List (κ × α) → κ → Option α
  | [], _ => none
  | (k, v) :: rest, key => if k = key then some v else mapGet rest key

/-- `Map.set`: replace the entry for the key in place, else append. -/
def mapSet {κ α : Type} [DecidableEq κ] : List (κ × α) → κ → α → List (κ × α)
  | [], key, v => [(key, v)]
  | (k, w) :: rest, key, v =>
    if k = key then (key, v) :: rest else (k, w) :: mapSet rest key v

/-- `Map.delete`: remove the entry for the key. -/
def mapDelete {κ α : Type} [DecidableEq κ] : List (κ × α) → κ → List (κ × α)
  | [], _ => []
  | (k, w) :: rest, key =>
    if k = key then rest else (k, w) :: mapDelete rest key

/-- State of an `AuthManager` instance: the immutable `SECRET` and the
`validTokens` map. -/
structure AuthState where
  secret : String
  validTokens : List (String × AuthToken)
deriving DecidableEq, Repr

/-- The `TOKEN_EXPIRY` constant: `60 * 60 * 1000` ms (one hour). -/
def TOKEN_EXPIRY : Nat := 60 * 60 * 1000

/-- The private `sign` method: base64 of `userId:roomId:SECRET`. -/
def sign (secret userId roomId : String) : String :=
  base64Encode (userId ++ ":" ++ roomId ++ ":" ++ secret)

/-- `generateToken`: build the `AuthToken`, key it by the base64 of its
JSON, store it, return the token string alongside the new state. -/
def generateToken (st : AuthState) (now : Nat) (userId roomId : String) :
    String × AuthState :=
  let token : AuthToken :=
    { userId := userId, roomId := roomId, issuedAt := now,
      expiresAt := now + TOKEN_EXPIRY,
      signature := sign st.secret userId roomId }
  let tokenStr := base64Encode (tokenJson token)
  (tokenStr, { st with validTokens := mapSet st.validTokens tokenStr token })

/-- The result record of `validateCredentials`. -/
structure ValidationResult where
  valid : Bool
  userId? : Option String := none
  roomId? : Option String := none
  error? : Option String := none
deriving DecidableEq, Repr

/-- `validateCredentials`: the five checks of `src/authManager.ts`, in
source order, together with the state after the call (expired tokens are
deleted on lookup). -/
def validateCredentials (st : AuthState) (now : Nat)
    (userId roomId token : String) : ValidationResult × AuthState :=
  match mapGet st.validTokens token with
  | none => ({ valid := false, error? := some "Invalid or expired token" }, st)
  | some tokenData =>
    if now > tokenData.expiresAt then
      ({ valid := false, error? := some "Token expired" },
        { st with validTokens := mapDelete st.validTokens token })
    else if tokenData.userId ≠ userId then
      ({ valid := false, error? := some "User ID mismatch" }, st)
    else if tokenData.roomId ≠ roomId then
      ({ valid := false, error? :=
          some ("Not authorized for this room. Token is for room " ++
            tokenData.roomId) }, st)
    else if tokenData.signature ≠ sign st.secret userId roomId then
      ({ valid := false, error? := some "Invalid token signature" }, st)
    else
      ({ valid := true, userId? := some userId, roomId? := some roomId }, st)

/-- `invalidateToken`: delete the entry for the token string. -/
def invalidateToken (st : AuthState) (token : String) : AuthState :=
  { st with validTokens := mapDelete st.validTokens token }

/-- The loop body of `getRoomUsers`: walk the map entries in order and
push the `userId` of every live token bound to the room. -/
def collectRoomUsers (now : Nat) (roomId : String) :
    List (String × AuthToken) → List String
  | [] => []
  | (_, t) :: rest =>
    if t.roomId = roomId ∧ now ≤ t.expiresAt then
      t.userId :: collectRoomUsers now roomId rest
    else collectRoomUsers now roomId rest

/-- `getRoomUsers`: holders of live tokens for the room. -/
def getRoomUsers (st : AuthState) (now : Nat) (roomId : String) :
    List String :=
  collectRoomUsers now roomId st.validTokens

/-- Well-formedness of an auth state: every stored token carries the
signature that `sign` computes from its own bound pair.  Every state
reachable through the public interface satisfies it. -/
def WFAuth (st : AuthState) : Prop :=
  ∀ p ∈ st.validTokens,
    p.2.signature = sign st.secret p.2.userId p.2.roomId

/-- The `RoomState` lifecycle values of a room. -/
inductive RoomState where
  | active
  | idle
  | closed
deriving DecidableEq, Repr

/-- The `PeerInfo` interface: one user connected inside one room. -/
structure PeerInfo where
  userId : String
  userName : String
  isHost : Bool
  connectedAt : Nat
  lastHeartbeat : Nat
deriving DecidableEq, Repr

/-- The `RoomMetadata` interface: one collaboration room. -/
structure RoomMetadata where
  roomId : String
  roomName : String
  hostId : String
  hostName : String
  createdAt : Nat
  lastActivity : Nat
  state : RoomState
  peers : List PeerInfo
  peerCount : Nat
deriving DecidableEq, Repr

/-- The `RemoteOperation` interface: one collaborative edit.  The signaling
code reads the author field as `userId`. -/
structure RemoteOperation where
  id : String
  userId : String
  timestamp : Nat
  opKind : String
  position : Nat
  content : Option String
  version : Nat
deriving DecidableEq, Repr

/-- State of the `RoomManager`: the `rooms` map.  In v2 there is no
operations map and no operation counter. -/
structure RoomManagerState where
  rooms : List (String × RoomMetadata)
deriving DecidableEq, Repr

/-- `recordOperation` of `src/roomManager.ts` (v2): a no-op that only
emits a log line; the state is returned untouched and no part of the
operation is stored. -/
def recordOperation (st : RoomManagerState) (roomId : String)
    (operation : RemoteOperation) : RoomManagerState × String :=
  (st,
    "[RoomManager] Operation from " ++ operation.userId ++ " in room " ++
      roomId ++ " - handled peer-to-peer")

/-- Modelled from the spec: `roomManager.joinRoom` (the file
`src/roomManager.ts` is not in the sources) — fails `RoomNotFound` if the
room is absent, otherwise appends a `Peer` with `isHost = (userId ==
hostId)` and updates `lastActivity`. -/
def joinRoom (rm : RoomManagerState) (now : Nat)
    (roomId userId userName : String) : RoomManagerState × Option String :=
  match mapGet rm.rooms roomId with
  | none => (rm, some "RoomNotFound")
  | some room =>
    let peer : PeerInfo :=
      { userId := userId, userName := userName,
        isHost := userId = room.hostId, connectedAt := now,
        lastHeartbeat := now }
    let room2 : RoomMetadata :=
      { room with
        peers := room.peers ++ [peer]
        peerCount := room.peerCount + 1
        lastActivity := now
        state := RoomState.active }
    ({ rooms := mapSet rm.rooms roomId room2 }, none)

/-- The `ClientInfo` record of the signaling server's connection table
(the socket handle is the map key). -/
structure ClientInfo where
  userId : String
  roomId : String
  connectedAt : Nat
deriving DecidableEq, Repr

/-- An incoming `auth` signaling message: `userId`, `roomId` and the
optional `data.token`. -/
structure AuthMessage where
  userId : String
  roomId : String
  token? : Option String
deriving DecidableEq, Repr

/-- State of the `SignalingServer` together with the `AuthManager` it
delegates to: the auth state, the connection table `clients` keyed by
socket handle, and the `RoomManager` state. -/
structure ServerState where
  auth : AuthState
  clients : List (Nat × ClientInfo)
  rooms : RoomManagerState
deriving DecidableEq, Repr

/-- What `handleAuth` sends back: an error message, or acceptance. -/
inductive AuthOutcome where
  | err (msg : String)
  | ok
deriving DecidableEq, Repr

/-- `handleAuth` of `src/signalingServer.ts` (v2): require `data.token`,
delegate to `validateCredentials`, and only on success register the client
in the connection table and join the room (the join step is modelled from
the spec; the failure paths return the error before any write). -/
def handleAuth (st : ServerState) (now : Nat) (socket : Nat)
    (msg : AuthMessage) : ServerState × AuthOutcome :=
  match msg.token? with
  | none => (st, AuthOutcome.err "Missing auth token")
  | some token =>
    let va := validateCredentials st.auth now msg.userId msg.roomId token
    if va.1.valid then
      let clientInfo : ClientInfo :=
        { userId := msg.userId, roomId := msg.roomId, connectedAt := now }
      let jr := joinRoom st.rooms now msg.roomId msg.userId msg.userId
      ({ auth := va.2, clients := mapSet st.clients socket clientInfo,
         rooms := jr.1 }, AuthOutcome.ok)
    else
      ({ st with auth := va.2 },
        AuthOutcome.err (va.1.error?.getD "Authentication failed"))

/-- The default `SECRET` of `src/authManager.ts` (no `AUTH_SECRET` set). -/
def exSecret : String := "dev-secret-change-in-production"

/-- An auth state with no stored token. -/
def exSt0 : AuthState := { secret := exSecret, validTokens := [] }

/-- A live, correctly signed token bound to `(alice, doc-1)`. -/
def exTokA : AuthToken :=
  { userId := "alice", roomId := "doc-1", issuedAt := 0,
    expiresAt := 3600000, signature := sign exSecret "alice" "doc-1" }

/-- An auth state holding `exTokA` under the key `tokA`. -/
def exStA : AuthState :=
  { secret := exSecret, validTokens := [("tokA", exTokA)] }

/-- A token that expired at time 10. -/
def exTokExp : AuthToken :=
  { userId := "alice", roomId := "doc-1", issuedAt := 0, expiresAt := 10,
    signature := "sig" }

/-- An auth state holding only the expired token under the key `tokE`. -/
def exStExp : AuthState :=
  { secret := exSecret, validTokens := [("tokE", exTokExp)] }

/-- A signaling-server state with no clients and no rooms. -/
def exSrv : ServerState :=
  { auth := exSt0, clients := [], rooms := { rooms := [] } }

/-- An auth message carrying a token string that is not in the table. -/
def exMsg : AuthMessage :=
  { userId := "alice", roomId := "doc-1", token? := some "bogus" }

/-- A live token bound to `(alice, roomA)`. -/
def c7live : AuthToken :=
  { userId := "alice", roomId := "roomA", issuedAt := 0, expiresAt := 100,
    signature := "s1" }

/-- A live token for the same user bound to a different room. -/
def c7other : AuthToken :=
  { userId := "alice", roomId := "roomB", issuedAt := 0, expiresAt := 100,
    signature := "s2" }

/-- A state holding both of alice's tokens. -/
def c7st : AuthState :=
  { secret := exSecret, validTokens := [("t1", c7live), ("t2", c7other)] }

/-- Sanity check of the base64 embedding against Node's `Buffer` output
on all padding shapes. -/
theorem base64Encode_samples :
    base64Encode "a" = "YQ==" ∧ base64Encode "ab" = "YWI=" ∧
    base64Encode "abc" = "YWJj" ∧ base64Encode "abcd" = "YWJjZA==" := by
  decide

theorem mapGet_mapSet_self {κ α : Type} [DecidableEq κ]
    (m : List (κ × α)) (k : κ) (v : α) :
    mapGet (mapSet m k v) k = some v := by
  induction m with
  | nil => simp [mapGet, mapSet]
  | cons p rest ih =>
    obtain ⟨a, b⟩ := p
    by_cases hak : a = k
    · simp [mapGet, mapSet, hak]
    · simp [mapGet, mapSet, hak, ih]

theorem mapGet_mapSet_ne {κ α : Type} [DecidableEq κ]
    (m : List (κ × α)) (k k2 : κ) (v : α) (h : k2 ≠ k) :
    mapGet (mapSet m k v) k2 = mapGet m k2 := by
  induction m with
  | nil => simp [mapGet, mapSet, Ne.symm h]
  | cons p rest ih =>
    obtain ⟨a, b⟩ := p
    by_cases hak : a = k
    · subst hak
      simp [mapGet, mapSet, Ne.symm h]
    · by_cases hak2 : a = k2
      · subst hak2
        simp [mapGet, mapSet, hak]
      · simp [mapGet, mapSet, hak, hak2, ih]

theorem mapGet_eq_none_of_not_mem {κ α : Type} [DecidableEq κ]
    (m : List (κ × α)) (k : κ) (h : k ∉ m.map Prod.fst) :
    mapGet m k = none := by
  induction m with
  | nil => simp [mapGet]
  | cons p rest ih =>
    obtain ⟨a, b⟩ := p
    simp only [List.map_cons, List.mem_cons] at h
    push_neg at h
    simp [mapGet, Ne.symm h.1, ih h.2]

theorem mapDelete_of_mapGet_eq_none {κ α : Type} [DecidableEq κ]
    (m : List (κ × α)) (k : κ) (h : mapGet m k = none) :
    mapDelete m k = m := by
  induction m with
  | nil => simp [mapDelete]
  | cons p rest ih =>
    obtain ⟨a, b⟩ := p
    by_cases hak : a = k
    · subst hak
      simp [mapGet] at h
    · simp [mapGet, hak] at h
      simp [mapDelete, hak, ih h]

theorem mapGet_mapDelete_self {κ α : Type} [DecidableEq κ]
    (m : List (κ × α)) (k : κ) (h : (m.map Prod.fst).Nodup) :
    mapGet (mapDelete m k) k = none := by
  induction m with
  | nil => simp [mapDelete, mapGet]
  | cons p rest ih =>
    obtain ⟨a, b⟩ := p
    simp only [List.map_cons, List.nodup_cons] at h
    by_cases hak : a = k
    · subst hak
      simpa [mapDelete] using mapGet_eq_none_of_not_mem rest a h.1
    · simp [mapDelete, mapGet, hak, ih h.2]

theorem mapGet_mem {κ α : Type} [DecidableEq κ]
    (m : List (κ × α)) (k : κ) (v : α) (h : mapGet m k = some v) :
    (k, v) ∈ m := by
  induction m with
  | nil => simp [mapGet] at h
  | cons p rest ih =>
    obtain ⟨a, b⟩ := p
    by_cases hak : a = k
    · subst hak
      simp [mapGet] at h
      simp [h]
    · simp [mapGet, hak] at h
      exact List.mem_cons_of_mem _ (ih h)

theorem mem_mapSet {κ α : Type} [DecidableEq κ]
    (m : List (κ × α)) (k : κ) (v : α) (p : κ × α)
    (h : p ∈ mapSet m k v) : p = (k, v) ∨ p ∈ m := by
  induction m with
  | nil =>
    simp [mapSet] at h
    exact Or.inl h
  | cons q rest ih =>
    obtain ⟨a, b⟩ := q
    by_cases hak : a = k
    · subst hak
      simp [mapSet] at h
      rcases h with h | h
      · exact Or.inl h
      · exact Or.inr (List.mem_cons_of_mem _ h)
    · simp [mapSet, hak] at h
      rcases h with h | h
      · exact Or.inr (by simp [h])
      · rcases ih h with h2 | h2
        · exact Or.inl h2
        · exact Or.inr (List.mem_cons_of_mem _ h2)

theorem mem_mapDelete {κ α : Type} [DecidableEq κ]
    (m : List (κ × α)) (k : κ) (p : κ × α)
    (h : p ∈ mapDelete m k) : p ∈ m := by
  induction m with
  | nil => simp [mapDelete] at h
  | cons q rest ih =>
    obtain ⟨a, b⟩ := q
    by_cases hak : a = k
    · subst hak
      simp only [mapDelete, if_true, eq_self_iff_true] at h
      exact List.mem_cons_of_mem _ h
    · simp [mapDelete, hak] at h
      rcases h with h | h
      · simp [h]
      · exact List.mem_cons_of_mem _ (ih h)

theorem mem_keys_mapSet {κ α : Type} [DecidableEq κ]
    (m : List (κ × α)) (k : κ) (v : α) (x : κ)
    (h : x ∈ (mapSet m k v).map Prod.fst) :
    x = k ∨ x ∈ m.map Prod.fst := by
  simp only [List.mem_map] at h
  obtain ⟨p, hp, hx⟩ := h
  rcases mem_mapSet m k v p hp with h2 | h2
  · subst h2
    exact Or.inl hx.symm
  · exact Or.inr (List.mem_map.mpr ⟨p, h2, hx⟩)

theorem nodupKeys_mapSet {κ α : Type} [DecidableEq κ]
    (m : List (κ × α)) (k : κ) (v : α)
    (h : (m.map Prod.fst).Nodup) :
    ((mapSet m k v).map Prod.fst).Nodup := by
  induction m with
  | nil => simp [mapSet]
  | cons p rest ih =>
    obtain ⟨a, b⟩ := p
    simp only [List.map_cons, List.nodup_cons] at h
    by_cases hak : a = k
    · subst hak
      simp [mapSet, List.nodup_cons, h.1, h.2]
    · simp only [mapSet, hak, if_false, List.map_cons, List.nodup_cons]
      refine ⟨fun hmem => ?_, ih h.2⟩
      rcases mem_keys_mapSet rest k v a hmem with h2 | h2
      · exact hak h2
      · exact h.1 h2

theorem mem_keys_mapDelete {κ α : Type} [DecidableEq κ]
    (m : List (κ × α)) (k : κ) (x : κ)
    (h : x ∈ (mapDelete m k).map Prod.fst) : x ∈ m.map Prod.fst := by
  simp only [List.mem_map] at h
  obtain ⟨p, hp, hx⟩ := h
  exact List.mem_map.mpr ⟨p, mem_mapDelete m k p hp, hx⟩

theorem nodupKeys_mapDelete {κ α : Type} [DecidableEq κ]
    (m : List (κ × α)) (k : κ)
    (h : (m.map Prod.fst).Nodup) :
    ((mapDelete m k).map Prod.fst).Nodup := by
  induction m with
  | nil => simp [mapDelete]
  | cons p rest ih =>
    obtain ⟨a, b⟩ := p
    simp only [List.map_cons, List.nodup_cons] at h
    by_cases hak : a = k
    · subst hak
      simpa [mapDelete] using h.2
    · simp only [mapDelete, hak, if_false, List.map_cons, List.nodup_cons]
      exact ⟨fun hmem => h.1 (mem_keys_mapDelete rest k a hmem), ih h.2⟩

theorem validateCredentials_eq_of_none (st : AuthState) (now : Nat)
    (userId roomId token : String)
    (h : mapGet st.validTokens token = none) :
    validateCredentials st now userId roomId token =
      ({ valid := false, error? := some "Invalid or expired token" }, st) := by
  simp [validateCredentials, h]

theorem validateCredentials_eq_of_expired (st : AuthState) (now : Nat)
    (userId roomId token : String) (t : AuthToken)
    (h : mapGet st.validTokens token = some t)
    (h2 : t.expiresAt < now) :
    validateCredentials st now userId roomId token =
      ({ valid := false, error? := some "Token expired" },
        { st with validTokens := mapDelete st.validTokens token }) := by
  simp [validateCredentials, h, h2]

theorem validateCredentials_eq_of_user_mismatch (st : AuthState) (now : Nat)
    (userId roomId token : String) (t : AuthToken)
    (h : mapGet st.validTokens token = some t)
    (h2 : now ≤ t.expiresAt) (h3 : t.userId ≠ userId) :
    validateCredentials st now userId roomId token =
      ({ valid := false, error? := some "User ID mismatch" }, st) := by
  simp [validateCredentials, h, not_lt.mpr h2, h3]

theorem validateCredentials_eq_of_room_mismatch (st : AuthState) (now : Nat)
    (userId roomId token : String) (t : AuthToken)
    (h : mapGet st.validTokens token = some t)
    (h2 : now ≤ t.expiresAt) (h3 : t.userId = userId)
    (h4 : t.roomId ≠ roomId) :
    validateCredentials st now userId roomId token =
      ({ valid := false, error? :=
          some ("Not authorized for this room. Token is for room " ++
            t.roomId) }, st) := by
  simp [validateCredentials, h, not_lt.mpr h2, h3, h4]

theorem validateCredentials_eq_of_sig_mismatch (st : AuthState) (now : Nat)
    (userId roomId token : String) (t : AuthToken)
    (h : mapGet st.validTokens token = some t)
    (h2 : now ≤ t.expiresAt) (h3 : t.userId = userId)
    (h4 : t.roomId = roomId)
    (h5 : t.signature ≠ sign st.secret userId roomId) :
    validateCredentials st now userId roomId token =
      ({ valid := false, error? := some "Invalid token signature" }, st) := by
  simp [validateCredentials, h, not_lt.mpr h2, h3, h4, h5]

theorem validateCredentials_eq_of_success (st : AuthState) (now : Nat)
    (userId roomId token : String) (t : AuthToken)
    (h : mapGet st.validTokens token = some t)
    (h2 : now ≤ t.expiresAt) (h3 : t.userId = userId)
    (h4 : t.roomId = roomId)
    (h5 : t.signature = sign st.secret userId roomId) :
    validateCredentials st now userId roomId token =
      ({ valid := true, userId? := some userId, roomId? := some roomId },
        st) := by
  simp [validateCredentials, h, not_lt.mpr h2, h3, h4, h5]

theorem room_mismatch_error_ne (r : String) :
    "Not authorized for this room. Token is for room " ++ r ≠
      "Invalid token signature" := by
  intro he
  have hl := congrArg String.length he
  rw [String.length_append] at hl
  have h1 : ("Not authorized for this room. Token is for room ").length = 48 := by
    decide
  have h2 : ("Invalid token signature").length = 23 := by decide
  omega

theorem validateCredentials_snd_of_valid (st : AuthState) (now : Nat)
    (userId roomId token : String)
    (h : (validateCredentials st now userId roomId token).1.valid = true) :
    (validateCredentials st now userId roomId token).2 = st := by
  cases hget : mapGet st.validTokens token with
  | none =>
    rw [validateCredentials_eq_of_none st now userId roomId token hget] at h
    simp at h
  | some t =>
    by_cases hexp : t.expiresAt < now
    · rw [validateCredentials_eq_of_expired st now userId roomId token t hget
        hexp] at h
      simp at h
    · have hle : now ≤ t.expiresAt := not_lt.mp hexp
      by_cases hu : t.userId = userId
      · by_cases hr : t.roomId = roomId
        · by_cases hs : t.signature = sign st.secret userId roomId
          · rw [validateCredentials_eq_of_success st now userId roomId token t
              hget hle hu hr hs]
          · rw [validateCredentials_eq_of_sig_mismatch st now userId roomId
              token t hget hle hu hr hs] at h
            simp at h
        · rw [validateCredentials_eq_of_room_mismatch st now userId roomId
            token t hget hle hu hr] at h
          simp at h
      · rw [validateCredentials_eq_of_user_mismatch st now userId roomId token
          t hget hle hu] at h
        simp at h

theorem validateCredentials_state_cases (st : AuthState) (now : Nat)
    (userId roomId token : String) :
    (validateCredentials st now userId roomId token).2 = st ∨
    (validateCredentials st now userId roomId token).2 =
      { st with validTokens := mapDelete st.validTokens token } := by
  cases hget : mapGet st.validTokens token with
  | none =>
    left
    rw [validateCredentials_eq_of_none st now userId roomId token hget]
  | some t =>
    by_cases hexp : t.expiresAt < now
    · right
      rw [validateCredentials_eq_of_expired st now userId roomId token t hget
        hexp]
    · have hle : now ≤ t.expiresAt := not_lt.mp hexp
      by_cases hu : t.userId = userId
      · by_cases hr : t.roomId = roomId
        · by_cases hs : t.signature = sign st.secret userId roomId
          · left
            rw [validateCredentials_eq_of_success st now userId roomId token t
              hget hle hu hr hs]
          · left
            rw [validateCredentials_eq_of_sig_mismatch st now userId roomId
              token t hget hle hu hr hs]
        · left
          rw [validateCredentials_eq_of_room_mismatch st now userId roomId
            token t hget hle hu hr]
      · left
        rw [validateCredentials_eq_of_user_mismatch st now userId roomId token
          t hget hle hu]

theorem WFAuth_empty (secret : String) :
    WFAuth { secret := secret, validTokens := [] } := by
  intro p hp
  simp at hp

theorem WFAuth_generateToken (st : AuthState) (now : Nat)
    (userId roomId : String) (h : WFAuth st) :
    WFAuth (generateToken st now userId roomId).2 := by
  intro p hp
  simp only [generateToken] at hp
  rcases mem_mapSet _ _ _ p hp with h2 | h2
  · subst h2
    rfl
  · exact h p h2

theorem WFAuth_invalidateToken (st : AuthState) (token : String)
    (h : WFAuth st) : WFAuth (invalidateToken st token) := by
  intro p hp
  exact h p (mem_mapDelete _ _ _ hp)

theorem WFAuth_validateCredentials (st : AuthState) (now : Nat)
    (userId roomId token : String) (h : WFAuth st) :
    WFAuth (validateCredentials st now userId roomId token).2 := by
  rcases validateCredentials_state_cases st now userId roomId token with
    h2 | h2
  · rw [h2]
    exact h
  · rw [h2]
    intro p hp
    exact h p (mem_mapDelete _ _ _ hp)

/-- C1: `validateCredentials` performs its five checks in the strict order
token-exists, not-expired, userId-match, roomId-match, signature-match,
returns the error of the first failing check together with the resulting
state (the expired entry is deleted), and the outcome never depends on any
check after the first failure. -/
theorem validateCredentials_check_order (st : AuthState) (now : Nat)
    (userId roomId token : String) :
    (mapGet st.validTokens token = none →
      validateCredentials st now userId roomId token =
        ({ valid := false, error? := some "Invalid or expired token" },
          st)) ∧
    (∀ t, mapGet st.validTokens token = some t → t.expiresAt < now →
      validateCredentials st now userId roomId token =
        ({ valid := false, error? := some "Token expired" },
          { st with validTokens := mapDelete st.validTokens token })) ∧
    (∀ t, mapGet st.validTokens token = some t → now ≤ t.expiresAt →
      t.userId ≠ userId →
      validateCredentials st now userId roomId token =
        ({ valid := false, error? := some "User ID mismatch" }, st)) ∧
    (∀ t, mapGet st.validTokens token = some t → now ≤ t.expiresAt →
      t.userId = userId → t.roomId ≠ roomId →
      validateCredentials st now userId roomId token =
        ({ valid := false, error? :=
            some ("Not authorized for this room. Token is for room " ++
              t.roomId) }, st)) ∧
    (∀ t, mapGet st.validTokens token = some t → now ≤ t.expiresAt →
      t.userId = userId → t.roomId = roomId →
      t.signature ≠ sign st.secret userId roomId →
      validateCredentials st now userId roomId token =
        ({ valid := false, error? := some "Invalid token signature" },
          st)) ∧
    (∀ t, mapGet st.validTokens token = some t → now ≤ t.expiresAt →
      t.userId = userId → t.roomId = roomId →
      t.signature = sign st.secret userId roomId →
      validateCredentials st now userId roomId token =
        ({ valid := true, userId? := some userId, roomId? := some roomId },
          st)) := by
  refine ⟨?_, ?_, ?_, ?_, ?_, ?_⟩
  · exact validateCredentials_eq_of_none st now userId roomId token
  · intro t hget hexp
    exact validateCredentials_eq_of_expired st now userId roomId token t hget
      hexp
  · intro t hget hle hu
    exact validateCredentials_eq_of_user_mismatch st now userId roomId token t
      hget hle hu
  · intro t hget hle hu hr
    exact validateCredentials_eq_of_room_mismatch st now userId roomId token t
      hget hle hu hr
  · intro t hget hle hu hr hs
    exact validateCredentials_eq_of_sig_mismatch st now userId roomId token t
      hget hle hu hr hs
  · intro t hget hle hu hr hs
    exact validateCredentials_eq_of_success st now userId roomId token t hget
      hle hu hr hs

/-- C1 witness: on a stored token that is both expired and bound to a
different user and room, the expiry error of check (b) wins. -/
theorem validateCredentials_check_order_witness :
    validateCredentials exStExp 99 "bob" "doc-2" "tokE" =
      ({ valid := false, error? := some "Token expired" },
        { exStExp with
            validTokens := mapDelete exStExp.validTokens "tokE" }) :=
  (validateCredentials_check_order exStExp 99 "bob" "doc-2" "tokE").2.1
    exTokExp (by decide) (by decide)

/-- C2: a token issued by `generateToken` for `(userId, roomId)` validates
successfully under that exact pair while it is unexpired, and fails
under every other pair. -/
theorem generateToken_roundtrip (st : AuthState) (now now2 : Nat)
    (userId roomId : String) (h : now2 ≤ now + TOKEN_EXPIRY) :
    ((validateCredentials (generateToken st now userId roomId).2 now2 userId
        roomId (generateToken st now userId roomId).1).1.valid = true) ∧
    ∀ userId2 roomId2, (userId2, roomId2) ≠ (userId, roomId) →
      (validateCredentials (generateToken st now userId roomId).2 now2
        userId2 roomId2 (generateToken st now userId roomId).1).1.valid =
        false := by
  have hget : mapGet (generateToken st now userId roomId).2.validTokens
      (generateToken st now userId roomId).1 =
      some { userId := userId, roomId := roomId, issuedAt := now,
             expiresAt := now + TOKEN_EXPIRY,
             signature := sign st.secret userId roomId } := by
    simp only [generateToken]
    exact mapGet_mapSet_self _ _ _
  constructor
  · rw [validateCredentials_eq_of_success _ now2 userId roomId _ _ hget h rfl
      rfl rfl]
  · intro userId2 roomId2 hne
    by_cases hu : userId2 = userId
    · subst hu
      have hr : roomId2 ≠ roomId := fun he => hne (by rw [he])
      rw [validateCredentials_eq_of_room_mismatch _ now2 userId2 roomId2 _ _
        hget h rfl (Ne.symm hr)]
    · rw [validateCredentials_eq_of_user_mismatch _ now2 userId2 roomId2 _ _
        hget h (Ne.symm hu)]

/-- C2 witness: a token generated at time 0 for `(alice, doc-1)` validates
for that pair at time 1000 and fails for `(bob, doc-1)`. -/
theorem generateToken_roundtrip_witness :
    ((validateCredentials (generateToken exSt0 0 "alice" "doc-1").2 1000
        "alice" "doc-1" (generateToken exSt0 0 "alice" "doc-1").1).1.valid =
      true) ∧
    ((validateCredentials (generateToken exSt0 0 "alice" "doc-1").2 1000
        "bob" "doc-1" (generateToken exSt0 0 "alice" "doc-1").1).1.valid =
      false) := by
  have h := generateToken_roundtrip exSt0 0 1000 "alice" "doc-1" (by decide)
  exact ⟨h.1, h.2 "bob" "doc-1" (by decide)⟩

/-- C3: validating a stored token past its expiry returns the expiry error,
removes the entry, and any later validation of the same token string hits
the token-not-found error. -/
theorem expired_token_removed (st : AuthState) (now : Nat)
    (userId roomId token : String) (t : AuthToken)
    (hn : (st.validTokens.map Prod.fst).Nodup)
    (hget : mapGet st.validTokens token = some t)
    (hexp : t.expiresAt < now) :
    (validateCredentials st now userId roomId token).1.error? =
      some "Token expired" ∧
    mapGet (validateCredentials st now userId roomId token).2.validTokens
      token = none ∧
    ∀ now2 userId2 roomId2,
      (validateCredentials (validateCredentials st now userId roomId token).2
        now2 userId2 roomId2 token).1.error? =
        some "Invalid or expired token" := by
  rw [validateCredentials_eq_of_expired st now userId roomId token t hget
    hexp]
  refine ⟨rfl, mapGet_mapDelete_self _ _ hn, ?_⟩
  intro now2 userId2 roomId2
  rw [validateCredentials_eq_of_none _ now2 userId2 roomId2 token
    (mapGet_mapDelete_self _ _ hn)]

/-- C3 witness: the expired token `tokE` at time 99. -/
theorem expired_token_removed_witness :
    (validateCredentials exStExp 99 "alice" "doc-1" "tokE").1.error? =
      some "Token expired" ∧
    mapGet (validateCredentials exStExp 99 "alice" "doc-1" "tokE").2.validTokens
      "tokE" = none ∧
    (validateCredentials (validateCredentials exStExp 99 "alice" "doc-1"
      "tokE").2 100 "alice" "doc-1" "tokE").1.error? =
      some "Invalid or expired token" := by
  have h := expired_token_removed exStExp 99 "alice" "doc-1" "tokE" exTokExp
    (by decide) (by decide) (by decide)
  exact ⟨h.1, h.2.1, h.2.2 100 "alice" "doc-1"⟩

/-- C4: when the credential validation of an `auth` message fails (missing
token, or `validateCredentials` invalid), `handleAuth` returns an error,
registers nothing in the connection table, and leaves the room state
untouched. -/
theorem handleAuth_failure (st : ServerState) (now : Nat) (socket : Nat)
    (msg : AuthMessage)
    (h : ∀ token, msg.token? = some token →
      (validateCredentials st.auth now msg.userId msg.roomId token).1.valid =
        false) :
    (∃ e, (handleAuth st now socket msg).2 = AuthOutcome.err e) ∧
    (handleAuth st now socket msg).1.clients = st.clients ∧
    (handleAuth st now socket msg).1.rooms = st.rooms := by
  cases hm : msg.token? with
  | none =>
    refine ⟨⟨"Missing auth token", ?_⟩, ?_, ?_⟩ <;> simp [handleAuth, hm]
  | some token =>
    have hv := h token hm
    refine ⟨⟨(validateCredentials st.auth now msg.userId msg.roomId
      token).1.error?.getD "Authentication failed", ?_⟩, ?_, ?_⟩ <;>
      simp [handleAuth, hm, hv]

/-- C4 witness: an unknown token string over the empty server state fails
and changes neither the connection table nor the rooms. -/
theorem handleAuth_failure_witness :
    (∃ e, (handleAuth exSrv 0 7 exMsg).2 = AuthOutcome.err e) ∧
    (handleAuth exSrv 0 7 exMsg).1.clients = exSrv.clients ∧
    (handleAuth exSrv 0 7 exMsg).1.rooms = exSrv.rooms := by
  apply handleAuth_failure
  intro token ht
  have h2 : "bogus" = token := by
    simpa [exMsg] using ht
  subst h2
  decide

/-- C5: `recordOperation` returns the `RoomManager` state unchanged for
every room id and operation payload; nothing of the payload is stored. -/
theorem recordOperation_noop (st : RoomManagerState) (roomId : String)
    (op : RemoteOperation) : (recordOperation st roomId op).1 = st := rfl

/-- C6: `generateToken` issues a token expiring exactly `TOKEN_EXPIRY`
(one hour, 3600000 ms) after issue, stores it under the returned string,
keeps the secret, and changes no other entry of the table. -/
theorem generateToken_insert (st : AuthState) (now : Nat)
    (userId roomId : String) :
    TOKEN_EXPIRY = 3600000 ∧
    (generateToken st now userId roomId).2.secret = st.secret ∧
    mapGet (generateToken st now userId roomId).2.validTokens
        (generateToken st now userId roomId).1 =
      some { userId := userId, roomId := roomId, issuedAt := now,
             expiresAt := now + TOKEN_EXPIRY,
             signature := sign st.secret userId roomId } ∧
    ∀ k, k ≠ (generateToken st now userId roomId).1 →
      mapGet (generateToken st now userId roomId).2.validTokens k =
        mapGet st.validTokens k := by
  refine ⟨rfl, rfl, ?_, ?_⟩
  · simp only [generateToken]
    exact mapGet_mapSet_self _ _ _
  · intro k hk
    simp only [generateToken] at hk ⊢
    exact mapGet_mapSet_ne _ _ _ _ hk

/-- C6 witness: the token generated at time 0 for `(alice, doc-1)` over the
empty table, with the unrelated key `x` unchanged. -/
theorem generateToken_insert_witness :
    TOKEN_EXPIRY = 3600000 ∧
    (generateToken exSt0 0 "alice" "doc-1").2.secret = exSt0.secret ∧
    mapGet (generateToken exSt0 0 "alice" "doc-1").2.validTokens
        (generateToken exSt0 0 "alice" "doc-1").1 =
      some { userId := "alice", roomId := "doc-1", issuedAt := 0,
             expiresAt := 0 + TOKEN_EXPIRY,
             signature := sign exSt0.secret "alice" "doc-1" } ∧
    mapGet (generateToken exSt0 0 "alice" "doc-1").2.validTokens "x" =
      mapGet exSt0.validTokens "x" := by
  have h := generateToken_insert exSt0 0 "alice" "doc-1"
  exact ⟨h.1, h.2.1, h.2.2.1, h.2.2.2 "x" (by decide)⟩

/-- C8: `invalidateToken` is idempotent, and on an absent token string it
leaves the state unchanged. -/
theorem invalidateToken_idempotent (st : AuthState) (token : String)
    (h : (st.validTokens.map Prod.fst).Nodup) :
    invalidateToken (invalidateToken st token) token =
      invalidateToken st token ∧
    (mapGet st.validTokens token = none → invalidateToken st token = st) := by
  constructor
  · have h2 : mapDelete (mapDelete st.validTokens token) token =
        mapDelete st.validTokens token :=
      mapDelete_of_mapGet_eq_none _ _ (mapGet_mapDelete_self _ _ h)
    simp [invalidateToken, h2]
  · intro h0
    simp [invalidateToken, mapDelete_of_mapGet_eq_none _ _ h0]

/-- C8 witness: deleting the absent key `nope` twice on a one-token table. -/
theorem invalidateToken_idempotent_witness :
    invalidateToken (invalidateToken exStA "nope") "nope" =
      invalidateToken exStA "nope" ∧
    invalidateToken exStA "nope" = exStA := by
  have h := invalidateToken_idempotent exStA "nope" (by decide)
  exact ⟨h.1, h.2 (by decide)⟩

/-- C7 counterexample: with two live tokens of one user in different rooms,
the stored token `t2` bound to `roomB` has its `userId` listed by
`getRoomUsers` for `roomA` (through the other token), so the per-token
"if and only if" of the claim fails in its only-if direction. -/
theorem getRoomUsers_per_token_iff_false :
    ("t2", c7other) ∈ c7st.validTokens ∧
    c7other.userId ∈ getRoomUsers c7st 50 "roomA" ∧
    ¬(c7other.roomId = "roomA" ∧ 50 ≤ c7other.expiresAt) := by decide

/-- C7 amended: a user is listed by `getRoomUsers roomId` exactly when some
stored token of that user is bound to `roomId` and unexpired
(`now ≤ expiresAt`); each matching token contributes its holder, but a
user may also be listed through a different matching token. -/
theorem getRoomUsers_mem_iff (st : AuthState) (now : Nat) (roomId u : String) :
    u ∈ getRoomUsers st now roomId ↔
      ∃ p ∈ st.validTokens,
        p.2.userId = u ∧ p.2.roomId = roomId ∧ now ≤ p.2.expiresAt := by
  unfold getRoomUsers
  generalize st.validTokens = l
  induction l with
  | nil => simp [collectRoomUsers]
  | cons q rest ih =>
    obtain ⟨k, t⟩ := q
    by_cases hc : t.roomId = roomId ∧ now ≤ t.expiresAt
    · simp only [collectRoomUsers]
      rw [if_pos hc]
      simp only [List.mem_cons, ih]
      constructor
      · rintro (h | h)
        · exact ⟨(k, t), Or.inl rfl, h.symm, hc.1, hc.2⟩
        · obtain ⟨p, hp, hrest⟩ := h
          exact ⟨p, Or.inr hp, hrest⟩
      · rintro ⟨p, hp, hu, hr, he⟩
        rcases hp with hp1 | hp2
        · subst hp1
          exact Or.inl hu.symm
        · exact Or.inr ⟨p, hp2, hu, hr, he⟩
    · simp only [collectRoomUsers]
      rw [if_neg hc]
      rw [ih]
      constructor
      · rintro ⟨p, hp, hu, hr, he⟩
        exact ⟨p, List.mem_cons_of_mem _ hp, hu, hr, he⟩
      · rintro ⟨p, hp, hu, hr, he⟩
        rcases List.mem_cons.mp hp with hp1 | hp2
        · subst hp1
          exact absurd ⟨hr, he⟩ hc
        · exact ⟨p, hp2, hu, hr, he⟩

/-- C9: over any well-formed auth state — in particular any state built
through the public interface — `validateCredentials` never returns the
signature-mismatch error: the recomputed signature always equals the
stored one once the earlier checks pass. -/
theorem signature_branch_unreachable (st : AuthState) (now : Nat)
    (userId roomId token : String) (h : WFAuth st) :
    (validateCredentials st now userId roomId token).1.error? ≠
      some "Invalid token signature" := by
  cases hget : mapGet st.validTokens token with
  | none =>
    rw [validateCredentials_eq_of_none st now userId roomId token hget]
    intro he
    exact absurd (Option.some.inj he) (by decide)
  | some t =>
    by_cases hexp : t.expiresAt < now
    · rw [validateCredentials_eq_of_expired st now userId roomId token t hget
        hexp]
      intro he
      exact absurd (Option.some.inj he) (by decide)
    · have hle : now ≤ t.expiresAt := not_lt.mp hexp
      by_cases hu : t.userId = userId
      · by_cases hr : t.roomId = roomId
        · have hs : t.signature = sign st.secret userId roomId := by
            have h2 := h (token, t) (mapGet_mem _ _ _ hget)
            rw [h2, hu, hr]
          rw [validateCredentials_eq_of_success st now userId roomId token t
            hget hle hu hr hs]
          intro he
          exact Option.noConfusion he
        · rw [validateCredentials_eq_of_room_mismatch st now userId roomId
            token t hget hle hu hr]
          intro he
          exact room_mismatch_error_ne t.roomId (Option.some.inj he)
      · rw [validateCredentials_eq_of_user_mismatch st now userId roomId token
          t hget hle hu]
        intro he
        exact absurd (Option.some.inj he) (by decide)

/-- C9 witness: the correctly signed stored token `tokA`. -/
theorem signature_branch_unreachable_witness :
    (validateCredentials exStA 50 "alice" "doc-1" "tokA").1.error? ≠
      some "Invalid token signature" := by
  apply signature_branch_unreachable
  intro p hp
  have h2 : p = ("tokA", exTokA) := by simpa [exStA] using hp
  subst h2
  decide

/-- C10: a successful validation leaves the token table unchanged, so the
same token string validates successfully under its pair after any number
of repeated validations. -/
theorem validateCredentials_success_frame (st : AuthState) (now : Nat)
    (userId roomId token : String)
    (h : (validateCredentials st now userId roomId token).1.valid = true) :
    (validateCredentials st now userId roomId token).2 = st ∧
    ∀ n : Nat,
      (validateCredentials
        ((fun s => (validateCredentials s now userId roomId token).2)^[n] st)
        now userId roomId token).1.valid = true := by
  have hsnd := validateCredentials_snd_of_valid st now userId roomId token h
  refine ⟨hsnd, ?_⟩
  have hit : ∀ n : Nat,
      (fun s => (validateCredentials s now userId roomId token).2)^[n] st =
        st := by
    intro n
    induction n with
    | zero => rfl
    | succ k ihk =>
      rw [Function.iterate_succ_apply', ihk]
      exact hsnd
  intro n
  rw [hit n]
  exact h

/-- C10 witness: validating `tokA` under its exact pair leaves the state
unchanged and still succeeds after three repetitions. -/
theorem validateCredentials_success_frame_witness :
    (validateCredentials exStA 50 "alice" "doc-1" "tokA").2 = exStA ∧
    (validateCredentials
      ((fun s => (validateCredentials s 50 "alice" "doc-1" "tokA").2)^[3]
        exStA) 50 "alice" "doc-1" "tokA").1.valid = true := by
  have h := validateCredentials_success_frame exStA 50 "alice" "doc-1" "tokA"
    (by decide)
  exact ⟨h.1, h.2 3⟩
